import Mathlib

/-!
Verification of the ESP32 voice-microphone recording/VAD state machine and
its chunked audio transport, shallowly embedded from the BLE sketch
(src/unnamed/part_000, version 1.3).  Timestamps are modelled as `Nat`
milliseconds (the sketch uses `millis()`, monotone during a session), audio
samples as their 16-bit patterns, and the recording buffer as the list of
samples written so far (its length is the write index `bufferIndex`).
-/

set_option linter.unusedVariables false

namespace VoiceMic

/-! Compile-time constants of the sketch. -/

def SAMPLE_RATE : Nat := 16000
def MAX_AUDIO_DURATION : Nat := 15
def FIXED_RECORDING_DURATION : Nat := 15
def REALTIME_CHUNK_DURATION : Nat := 3
def SILENCE_THRESHOLD : Int := 500
def SILENCE_DURATION : Nat := 1000
def MIN_RECORDING_DURATION : Nat := 300

/-- Operating states of the device (enum SystemState in the sketch). -/
inductive SystemState where
  | IDLE
  | RECORDING
  | PROCESSING
  | PLAYING
  | BLUETOOTH_DISCONNECTED
deriving DecidableEq, Repr

/-- The sketch's global mutable variables that the state machine touches. -/
structure Device where
  currentState : SystemState
  bluetoothConnected : Bool
  recordingActive : Bool
  bufferIndex : Nat
  maxBufferSize : Nat
  recordingStartTime : Nat
  lastSpeechTime : Nat
  speechDetected : Bool
  manualRecording : Bool
deriving DecidableEq, Repr

/-- Voice-activity tracker state: the pair of globals
`speechDetected` and `lastSpeechTime`. -/
structure VadState where
  speechDetected : Bool
  lastSpeechTime : Nat
deriving DecidableEq, Repr

/-- Mean absolute amplitude of one audio block, as computed in
`checkVoiceActivity` (sum of `abs(sample)` divided by the sample count). -/
def blockLevel (block : List Int) : Int :=
  (block.map (fun x => |x|)).sum / (block.length : Int)

/-- The VAD state update performed by `checkVoiceActivity` on one block whose
energy level is `level`, at time `now`: above threshold sets
`speechDetected := true` and stamps `lastSpeechTime := now`; below threshold
clears `speechDetected` only once more than `SILENCE_DURATION` ms have passed
since `lastSpeechTime`.  The function's C return value is the updated
`speechDetected`. -/
def vadUpdate (s : VadState) (level : Int) (now : Nat) : VadState :=
  if SILENCE_THRESHOLD < level then
    { speechDetected := true, lastSpeechTime := now }
  else if s.speechDetected ∧ SILENCE_DURATION < now - s.lastSpeechTime then
    { s with speechDetected := false }
  else s

/-- Process a sequence of (level, time) ticks through the VAD tracker. -/
def vadRun (s : VadState) : List (Int × Nat) → VadState
  | [] => s
  | p :: ps => vadRun (vadUpdate s p.1 p.2) ps

/-- Appending one block into the recording buffer (the `memcpy` in
`checkVoiceActivity`): when the write index is below capacity, copy
`min(blockLength, cap - writeIndex)` samples; otherwise nothing. -/
def appendBlock (cap : Nat) (store : List Int) (block : List Int) : List Int :=
  if store.length < cap then store ++ block.take (cap - store.length) else store

/-- Appending a sequence of blocks. -/
def appendAll (cap : Nat) (store : List Int) : List (List Int) → List Int
  | [] => store
  | b :: bs => appendAll cap (appendBlock cap store b) bs

/-- The body of `startRecording(bool manual)`: a no-op unless the state is
IDLE and the link is connected; otherwise it resets the write index, stamps
the start and last-speech times, raises the recording flags and moves to
RECORDING. -/
def startRecording (manual : Bool) (now : Nat) (d : Device) : Device :=
  if d.currentState ≠ SystemState.IDLE ∨ d.bluetoothConnected = false then d
  else
    { d with
      manualRecording := manual
      bufferIndex := 0
      recordingStartTime := now
      lastSpeechTime := now
      recordingActive := true
      speechDetected := true
      currentState := SystemState.RECORDING }

/-- The validity gate evaluated in `stopRecording`: the session is worth
transporting iff `bufferIndex > 100` and the actual elapsed duration is at
least 100 ms.  (The sketch also computes `hasValidDuration` against
`MIN_RECORDING_DURATION` = 300 ms but does not use it in the decision.) -/
def sessionValid (bufIdx elapsed : Nat) : Bool :=
  decide (100 < bufIdx) && decide (100 ≤ elapsed)

/-- The body of `stopRecording()`: a no-op outside RECORDING; otherwise it
clears the recording flags and either transports the buffer and moves to
PROCESSING (valid session) or discards it and returns to IDLE.  The returned
Bool records whether the buffer was transported (`sendAudioToPc` called). -/
def stopRecording (now : Nat) (d : Device) : Device × Bool :=
  if d.currentState ≠ SystemState.RECORDING then (d, false)
  else if sessionValid d.bufferIndex (now - d.recordingStartTime) then
    ({ d with
        recordingActive := false
        manualRecording := false
        currentState := SystemState.PROCESSING }, true)
  else
    ({ d with
        recordingActive := false
        manualRecording := false
        currentState := SystemState.IDLE }, false)

/-- Buffer-capacity-derived maximum duration in milliseconds
(`maxBufferSize / SAMPLE_RATE` seconds in the sketch, held in float seconds
there; milliseconds here). -/
def capacityMsOf (cap : Nat) : Nat := cap * 1000 / SAMPLE_RATE

/-- Manual-mode target duration: `min(FIXED_RECORDING_DURATION,
maxRecordingTime)` seconds, in milliseconds. -/
def manualTargetMs (cap : Nat) : Nat :=
  min (FIXED_RECORDING_DURATION * 1000) (capacityMsOf cap)

/-- Automatic-mode target duration: `min(REALTIME_CHUNK_DURATION,
maxRecordingTime)` seconds, in milliseconds. -/
def autoTargetMs (cap : Nat) : Nat :=
  min (REALTIME_CHUNK_DURATION * 1000) (capacityMsOf cap)

/-- Manual-mode per-tick stop decision in `handleRecordingState`: stop iff
the elapsed time reached the target duration (silence never stops a manual
session). -/
def manualStopDecision (targetMs elapsed : Nat) : Bool :=
  decide (targetMs ≤ elapsed)

/-- Automatic-mode per-tick stop decision in `handleRecordingState`: stop
when the elapsed time reaches the target, or when the tracker reports
not-speaking, silence has persisted more than `SILENCE_DURATION` ms, the
elapsed time exceeds 100 ms and the write index exceeds 50 samples;
otherwise keep recording. -/
def autoStopDecision (targetMs elapsed : Nat) (speaking : Bool)
    (silenceMs bufIdx : Nat) : Bool :=
  if targetMs ≤ elapsed then true
  else if speaking = false ∧ SILENCE_DURATION < silenceMs ∧
      100 < elapsed ∧ 50 < bufIdx then true
  else false

/-- Claim-side rendering of the automatic stop rule, following the spec's
words: the minimum-sample floor is the single constant MIN_VALID_SAMPLES
that the spec's validity gate fixes at 100 samples.  Kept for comparison
with `autoStopDecision`, which is translated from the source. -/
def claimAutoStopDecision (targetMs elapsed : Nat) (speaking : Bool)
    (silenceMs bufIdx : Nat) : Bool :=
  if targetMs ≤ elapsed then true
  else if speaking = false ∧ SILENCE_DURATION < silenceMs ∧
      100 < elapsed ∧ 100 < bufIdx then true
  else false

/-- The silence-stop condition alone (the inner branch of the automatic mode
in `handleRecordingState`), taking the already computed silence time
`now - lastSpeechTime` and elapsed time `now - recordingStartTime`. -/
def silenceStopCond (speaking : Bool) (silenceMs elapsed bufIdx : Nat) : Bool :=
  !speaking && decide (SILENCE_DURATION < silenceMs) &&
    decide (100 < elapsed) && decide (50 < bufIdx)

/-- Effect of the disconnect edge in `checkBluetoothConnection`: from any
state the machine records the link as down, enters BLUETOOTH_DISCONNECTED
and clears the recording-active flag. -/
def onDisconnect (d : Device) : Device :=
  { d with
    bluetoothConnected := false
    currentState := SystemState.BLUETOOTH_DISCONNECTED
    recordingActive := false }

/-- Effect of the connect edge in `checkBluetoothConnection`. -/
def onConnect (d : Device) : Device :=
  { d with bluetoothConnected := true, currentState := SystemState.IDLE }

/-- Little-endian bytes of an unsigned 32-bit value, as laid out by the
`memcpy` of `uint32_t` fields into the header on the little-endian target. -/
def u32le (n : Nat) : List Nat :=
  [n % 256, n / 256 % 256, n / 65536 % 256, n / 16777216 % 256]

/-- Reading an unsigned 32-bit value back from four little-endian bytes. -/
def decodeU32le : List Nat → Nat
  | b0 :: b1 :: b2 :: b3 :: _ => b0 + 256 * b1 + 65536 * b2 + 16777216 * b3
  | _ => 0

/-- The 9-byte header frame of `sendAudioToPc`: byte 0 is `'A'` (65), bytes
1-4 the sample count, bytes 5-8 the sample rate, both unsigned 32-bit
little-endian. -/
def audioHeader (sampleCount sampleRate : Nat) : List Nat :=
  65 :: (u32le sampleCount ++ u32le sampleRate)

/-- Little-endian byte pair of one 16-bit sample pattern. -/
def sampleLE (s : Nat) : List Nat := [s % 256, s / 256 % 256]

/-- Raw little-endian byte content of the recording buffer. -/
def storeBytes : List Nat → List Nat
  | [] => []
  | s :: rest => sampleLE s ++ storeBytes rest

/-- Splitting a byte list into consecutive chunks of `k + 1` bytes (the send
loop advances its byte offset by `chunkSize` per emitted chunk; the sketch
uses `chunkSize = 18`, so the payload chunking is `chunksOf 17`). -/
def chunksOf (k : Nat) : List Nat → List (List Nat)
  | [] => []
  | b :: rest => (b :: rest).take (k + 1) :: chunksOf k (rest.drop k)
termination_by l => l.length
decreasing_by simp [List.length_drop]; omega

/-- The payload chunks of a completed recording (chunk size 18 bytes). -/
def audioChunks (samples : List Nat) : List (List Nat) :=
  chunksOf 17 (storeBytes samples)

/-- The chunk-emission loop of `sendAudioToPc`: before sending chunk `i` it
re-checks the link (`deviceConnected && bluetoothConnected`, here
`conn i`) and returns immediately, emitting nothing further, once the link
is down. -/
def sendChunks (conn : Nat → Bool) : Nat → List (List Nat) → List (List Nat)
  | _, [] => []
  | i, c :: cs => if conn i then c :: sendChunks conn (i + 1) cs else []

/-- The inbound command dispatch of `handleBLECommand`: `'P'` plays the test
tone to completion (net state IDLE again), `'S'` sends a status frame
without changing state, `'R'` and `'E'` both set the state to IDLE, any
other byte is logged and ignored. -/
def handleBLECommand (c : Char) (d : Device) : Device :=
  if c = 'P' then { d with currentState := SystemState.IDLE }
  else if c = 'S' then d
  else if c = 'R' then { d with currentState := SystemState.IDLE }
  else if c = 'E' then { d with currentState := SystemState.IDLE }
  else d

/-- A mid-recording device snapshot with `bufIdx` samples collected, session
started at time 0, used for concrete boundary evaluations. -/
def sessionAt (bufIdx : Nat) : Device :=
  { currentState := SystemState.RECORDING
    bluetoothConnected := true
    recordingActive := true
    bufferIndex := bufIdx
    maxBufferSize := SAMPLE_RATE * MAX_AUDIO_DURATION
    recordingStartTime := 0
    lastSpeechTime := 0
    speechDetected := true
    manualRecording := false }

/-- An idle, connected device, used for concrete start evaluations. -/
def idleDev : Device :=
  { currentState := SystemState.IDLE
    bluetoothConnected := true
    recordingActive := false
    bufferIndex := 0
    maxBufferSize := SAMPLE_RATE * MAX_AUDIO_DURATION
    recordingStartTime := 0
    lastSpeechTime := 0
    speechDetected := false
    manualRecording := false }

/-- A link predicate that drops the connection from chunk index 2 on. -/
def connUntil2 : Nat → Bool := fun i => decide (i < 2)

/-! Helper lemmas. -/

theorem appendBlock_length (cap : Nat) (store block : List Int)
    (h : store.length ≤ cap) :
    (appendBlock cap store block).length = min cap (store.length + block.length) := by
  unfold appendBlock
  split
  · simp only [List.length_append, List.length_take]
    omega
  · omega

theorem appendAll_length (cap : Nat) (blocks : List (List Int)) :
    ∀ store : List Int, store.length ≤ cap →
      (appendAll cap store blocks).length =
        min cap (store.length + (blocks.map List.length).sum) := by
  induction blocks with
  | nil =>
    intro store h
    simp [appendAll]
    omega
  | cons b bs ih =>
    intro store h
    rw [appendAll]
    have h1 := appendBlock_length cap store b h
    have h2 : (appendBlock cap store b).length ≤ cap := by omega
    rw [ih _ h2, h1]
    simp only [List.map_cons, List.sum_cons]
    omega

theorem sendChunks_length_le (conn : Nat → Bool) :
    ∀ (cs : List (List Nat)) (i k : Nat), i ≤ k → conn k = false →
      (sendChunks conn i cs).length ≤ k - i := by
  intro cs
  induction cs with
  | nil => intro i k hik hk; simp [sendChunks]
  | cons c cs ih =>
    intro i k hik hk
    rw [sendChunks]
    split
    · next hc =>
      have hik' : i < k := by
        rcases Nat.lt_or_ge i k with h | h
        · exact h
        · have : i = k := by omega
          rw [this] at hc
          rw [hk] at hc
          exact absurd hc (by simp)
      have := ih (i + 1) k (by omega) hk
      simp only [List.length_cons]
      omega
    · simp

theorem sendChunks_all (conn : Nat → Bool) (hconn : ∀ j, conn j = true) :
    ∀ (cs : List (List Nat)) (i : Nat), sendChunks conn i cs = cs := by
  intro cs
  induction cs with
  | nil => intro i; rfl
  | cons c cs ih =>
    intro i
    rw [sendChunks, if_pos (hconn i), ih]

theorem chunksOf_flatten (k : Nat) :
    ∀ (n : Nat) (l : List Nat), l.length ≤ n → (chunksOf k l).flatten = l := by
  intro n
  induction n with
  | zero =>
    intro l h
    have : l = [] := List.length_eq_zero.mp (by omega)
    subst this
    simp [chunksOf]
  | succ n ih =>
    intro l h
    match l with
    | [] => simp [chunksOf]
    | b :: rest =>
      rw [chunksOf]
      have hlen : (rest.drop k).length ≤ n := by
        simp only [List.length_drop]
        simp only [List.length_cons] at h
        omega
      simp only [List.flatten_cons, ih _ hlen]
      rw [List.take_succ_cons, List.cons_append]
      rw [List.take_append_drop]

theorem chunksOf_length (k : Nat) :
    ∀ (n : Nat) (l : List Nat), l.length ≤ n →
      (chunksOf k l).length = (l.length + k) / (k + 1) := by
  intro n
  induction n with
  | zero =>
    intro l h
    have : l = [] := List.length_eq_zero.mp (by omega)
    subst this
    simp [chunksOf, Nat.div_eq_of_lt]
  | succ n ih =>
    intro l h
    match l with
    | [] => simp [chunksOf, Nat.div_eq_of_lt]
    | b :: rest =>
      rw [chunksOf]
      have hlen : (rest.drop k).length ≤ n := by
        simp only [List.length_drop]
        simp only [List.length_cons] at h
        omega
      simp only [List.length_cons, ih _ hlen, List.length_drop]
      rcases le_or_lt k rest.length with hk | hk
      · have e1 : rest.length - k + k = rest.length := by omega
        have e2 : rest.length + 1 + k = rest.length + (k + 1) := by omega
        rw [e1, e2, Nat.add_div_right _ (Nat.succ_pos k)]
      · have e1 : rest.length - k + k = k := by omega
        rw [e1]
        have r1 : k / (k + 1) = 0 := Nat.div_eq_of_lt (by omega)
        have r2 : (rest.length + 1 + k) / (k + 1) = 1 :=
          Nat.div_eq_of_lt_le (by omega) (by omega)
        omega

theorem storeBytes_length : ∀ samples : List Nat,
    (storeBytes samples).length = 2 * samples.length := by
  intro samples
  induction samples with
  | nil => rfl
  | cons s rest ih =>
    rw [storeBytes]
    simp only [List.length_append, List.length_cons, ih, sampleLE, List.length_nil]
    omega

theorem vadRun_hold (t : Nat) :
    ∀ ticks : List (Int × Nat),
      (∀ p ∈ ticks, p.1 ≤ SILENCE_THRESHOLD ∧ p.2 ≤ t + SILENCE_DURATION) →
      vadRun { speechDetected := true, lastSpeechTime := t } ticks =
        { speechDetected := true, lastSpeechTime := t } := by
  intro ticks
  induction ticks with
  | nil => intro h; rfl
  | cons p ps ih =>
    intro h
    have hp := h p (List.mem_cons_self p ps)
    have hstep : vadUpdate { speechDetected := true, lastSpeechTime := t } p.1 p.2 =
        { speechDetected := true, lastSpeechTime := t } := by
      unfold vadUpdate
      split
      · next hlt => exact absurd hlt (by omega)
      · split
        · next hc =>
          exfalso
          have hc2 : SILENCE_DURATION < p.2 - t := hc.2
          omega
        · rfl
    rw [vadRun, hstep, ih (fun q hq => h q (List.mem_cons_of_mem p hq))]

/-! Claim theorems. -/

/-- C2: for every sequence of block appends into the recording buffer
(started empty), the write index after the appends equals
`min(capacitySamples, sum of the appended block lengths)`; and after every
prefix of the appends the write index is at most `capacitySamples`, so no
sample is ever written at an index at or beyond the capacity. -/
theorem ring_store_truncation (cap : Nat) (blocks : List (List Int)) :
    (appendAll cap [] blocks).length = min cap (blocks.map List.length).sum ∧
    ∀ n : Nat, (appendAll cap [] (blocks.take n)).length ≤ cap := by
  constructor
  · have := appendAll_length cap blocks [] (by simp)
    simpa using this
  · intro n
    have := appendAll_length cap (blocks.take n) [] (by simp)
    simp only [List.length_nil, Nat.zero_add] at this
    omega

/-- C4: `startRecording` is a no-op unless the state is IDLE and the link is
connected; in particular a begin issued while already RECORDING changes
nothing, so a running session is never restarted or overlapped. -/
theorem start_recording_no_op :
    (∀ (m : Bool) (now : Nat) (d : Device),
        d.currentState ≠ SystemState.IDLE → startRecording m now d = d) ∧
    (∀ (m : Bool) (now : Nat) (d : Device),
        d.bluetoothConnected = false → startRecording m now d = d) ∧
    (∀ (m : Bool) (now : Nat) (d : Device),
        d.currentState = SystemState.RECORDING →
          startRecording m now d = d ∧
          (startRecording m now d).currentState = SystemState.RECORDING) := by
  refine ⟨?_, ?_, ?_⟩
  · intro m now d h
    unfold startRecording
    rw [if_pos (Or.inl h)]
  · intro m now d h
    unfold startRecording
    rw [if_pos (Or.inr h)]
  · intro m now d h
    have hne : d.currentState ≠ SystemState.IDLE := by
      rw [h]; intro hc; exact SystemState.noConfusion hc
    have heq : startRecording m now d = d := by
      unfold startRecording
      rw [if_pos (Or.inl hne)]
    exact ⟨heq, by rw [heq, h]⟩

/-- C4 witness: concrete instantiations of the no-op guarantees at a device
that is mid-recording. -/
theorem start_recording_no_op_witness :
    startRecording true 7 (sessionAt 500) = sessionAt 500 ∧
    (startRecording false 9 (sessionAt 500)).currentState =
      SystemState.RECORDING :=
  ⟨(start_recording_no_op.2.2 true 7 (sessionAt 500) rfl).1,
   (start_recording_no_op.2.2 false 9 (sessionAt 500) rfl).2⟩

/-- C1 counterexample: the spec's boundary vector says a session with 100
samples and 100 ms elapsed is valid, but the code's sample floor is strict
(`bufferIndex > 100`), so that session is not transported and the state
returns to IDLE instead of PROCESSING. -/
theorem stop_validity_boundary_100_100 :
    (stopRecording 100 (sessionAt 100)).2 = false ∧
    (stopRecording 100 (sessionAt 100)).1.currentState = SystemState.IDLE := by
  decide

/-- C1 amended: a finished session is valid (transported, RECORDING to
PROCESSING) iff its sample count strictly exceeds 100 and its elapsed time
is at least 100 ms; hence the boundary session (100 samples, 100 ms) is
invalid, (50 samples, 400 ms) and (200 samples, 50 ms) are invalid, and
(101 samples, 100 ms) is valid. -/
theorem stop_validity_gate :
    (∀ (now : Nat) (d : Device), d.currentState = SystemState.RECORDING →
        (((stopRecording now d).2 = true) ↔
          (100 < d.bufferIndex ∧ 100 ≤ now - d.recordingStartTime)) ∧
        (((stopRecording now d).1.currentState = SystemState.PROCESSING) ↔
          (100 < d.bufferIndex ∧ 100 ≤ now - d.recordingStartTime)) ∧
        ((stopRecording now d).2 = false →
          (stopRecording now d).1.currentState = SystemState.IDLE)) ∧
    (stopRecording 400 (sessionAt 50)).2 = false ∧
    (stopRecording 50 (sessionAt 200)).2 = false ∧
    (stopRecording 100 (sessionAt 101)).2 = true := by
  refine ⟨?_, by decide, by decide, by decide⟩
  intro now d h
  have hne : ¬ d.currentState ≠ SystemState.RECORDING := by simp [h]
  have hiff : sessionValid d.bufferIndex (now - d.recordingStartTime) = true ↔
      (100 < d.bufferIndex ∧ 100 ≤ now - d.recordingStartTime) := by
    simp [sessionValid]
  unfold stopRecording
  rw [if_neg hne]
  by_cases hv : sessionValid d.bufferIndex (now - d.recordingStartTime) = true
  · rw [if_pos hv]
    refine ⟨?_, ?_, ?_⟩
    · simpa using hiff.mp hv
    · simpa using hiff.mp hv
    · intro hc
      exact absurd hc (by simp)
  · rw [if_neg hv]
    have hnot : ¬ (100 < d.bufferIndex ∧ 100 ≤ now - d.recordingStartTime) :=
      fun hc => hv (hiff.mpr hc)
    refine ⟨?_, ?_, fun _ => rfl⟩
    · simpa using hnot
    · simpa using hnot

/-- C1 witness: the amended gate applied at the concrete valid session of
101 samples stopped 100 ms after start. -/
theorem stop_validity_gate_witness :
    ((stopRecording 100 (sessionAt 101)).2 = true) ↔
      (100 < (sessionAt 101).bufferIndex ∧
        100 ≤ 100 - (sessionAt 101).recordingStartTime) :=
  (stop_validity_gate.1 100 (sessionAt 101) rfl).1

/-- C3: the VAD hysteresis is asymmetric: any above-threshold level turns
`speechDetected` on in the same tick and stamps `lastSpeechTime`; after an
above-threshold tick at time t, any run of below-threshold ticks whose
times stay within t + SILENCE_DURATION leaves `speechDetected` true; and
`speechDetected` can fall only on a below-threshold tick at which more than
SILENCE_DURATION ms have passed since `lastSpeechTime`. -/
theorem vad_hysteresis_asymmetry :
    (∀ (s : VadState) (level : Int) (now : Nat),
        SILENCE_THRESHOLD < level →
          (vadUpdate s level now).speechDetected = true ∧
          (vadUpdate s level now).lastSpeechTime = now) ∧
    (∀ (s : VadState) (level : Int) (t : Nat) (ticks : List (Int × Nat)),
        SILENCE_THRESHOLD < level →
        (∀ p ∈ ticks, p.1 ≤ SILENCE_THRESHOLD ∧ p.2 ≤ t + SILENCE_DURATION) →
          (vadRun (vadUpdate s level t) ticks).speechDetected = true) ∧
    (∀ (s : VadState) (level : Int) (now : Nat),
        s.speechDetected = true →
        (vadUpdate s level now).speechDetected = false →
          level ≤ SILENCE_THRESHOLD ∧
          SILENCE_DURATION < now - s.lastSpeechTime) := by
  refine ⟨?_, ?_, ?_⟩
  · intro s level now h
    unfold vadUpdate
    rw [if_pos h]
    exact ⟨rfl, rfl⟩
  · intro s level t ticks h hticks
    have h1 : vadUpdate s level t = { speechDetected := true, lastSpeechTime := t } := by
      unfold vadUpdate
      rw [if_pos h]
    rw [h1, vadRun_hold t ticks hticks]
  · intro s level now hs hfalse
    unfold vadUpdate at hfalse
    by_cases h1 : SILENCE_THRESHOLD < level
    · rw [if_pos h1] at hfalse
      exact absurd hfalse (by simp)
    · rw [if_neg h1] at hfalse
      by_cases h2 : s.speechDetected = true ∧ SILENCE_DURATION < now - s.lastSpeechTime
      · exact ⟨le_of_not_lt h1, h2.2⟩
      · rw [if_neg h2] at hfalse
        rw [hs] at hfalse
        exact absurd hfalse (by simp)

/-- C3 witness: the three hysteresis properties evaluated at a concrete
rising edge, a concrete below-threshold hold window, and a concrete falling
edge. -/
theorem vad_hysteresis_asymmetry_witness :
    (vadUpdate { speechDetected := false, lastSpeechTime := 0 } 600 5).speechDetected = true ∧
    (vadRun (vadUpdate { speechDetected := false, lastSpeechTime := 0 } 600 5)
        [(100, 400), (0, 1005)]).speechDetected = true ∧
    ((100 : Int) ≤ SILENCE_THRESHOLD ∧
      SILENCE_DURATION <
        1500 - ({ speechDetected := true, lastSpeechTime := 200 } : VadState).lastSpeechTime) :=
  ⟨(vad_hysteresis_asymmetry.1 _ 600 5 (by decide)).1,
   vad_hysteresis_asymmetry.2.1 _ 600 5 [(100, 400), (0, 1005)] (by decide) (by decide),
   vad_hysteresis_asymmetry.2.2 { speechDetected := true, lastSpeechTime := 200 } 100 1500
     rfl (by decide)⟩

/-- C5: the emitted header is the fixed 9-byte frame starting with the byte
for the character A, whose bytes 1-4 decode back to the sample count and
bytes 5-8 to the sample rate; the in-order concatenation of the payload
chunks equals the raw little-endian byte content of the store; with the
link up throughout, the emission loop emits exactly those chunks; the byte
length is twice the sample count; and the chunk count is the ceiling of the
byte length divided by the 18-byte chunk size. -/
theorem transport_framing_roundtrip :
    ∀ samples : List Nat,
      samples.length < 4294967296 →
        (audioHeader samples.length SAMPLE_RATE).length = 9 ∧
        (audioHeader samples.length SAMPLE_RATE).head? = some 65 ∧
        decodeU32le ((audioHeader samples.length SAMPLE_RATE).drop 1) = samples.length ∧
        decodeU32le ((audioHeader samples.length SAMPLE_RATE).drop 5) = SAMPLE_RATE ∧
        (audioChunks samples).flatten = storeBytes samples ∧
        sendChunks (fun _ => true) 0 (audioChunks samples) = audioChunks samples ∧
        (storeBytes samples).length = 2 * samples.length ∧
        (audioChunks samples).length = ((storeBytes samples).length + 18 - 1) / 18 := by
  intro samples h
  refine ⟨by simp [audioHeader, u32le], rfl, ?_, ?_, ?_, ?_, storeBytes_length samples, ?_⟩
  · show decodeU32le (u32le samples.length ++ u32le SAMPLE_RATE) = samples.length
    simp only [u32le, List.cons_append, List.nil_append, decodeU32le]
    omega
  · have hdrop : (audioHeader samples.length SAMPLE_RATE).drop 5 = u32le SAMPLE_RATE := by
      simp [audioHeader, u32le]
    rw [hdrop]
    decide
  · exact chunksOf_flatten 17 (storeBytes samples).length (storeBytes samples) le_rfl
  · exact sendChunks_all _ (fun j => rfl) (audioChunks samples) 0
  · have hc := chunksOf_length 17 (storeBytes samples).length (storeBytes samples) le_rfl
    show (chunksOf 17 (storeBytes samples)).length = ((storeBytes samples).length + 18 - 1) / 18
    rw [hc]
    omega

/-- C5 witness: the framing round-trip at a concrete three-sample store. -/
theorem transport_framing_roundtrip_witness :
    decodeU32le ((audioHeader [1, 258, 515].length SAMPLE_RATE).drop 1) = [1, 258, 515].length ∧
    (audioChunks [1, 258, 515]).flatten = storeBytes [1, 258, 515] :=
  ⟨(transport_framing_roundtrip [1, 258, 515] (by decide)).2.2.1,
   (transport_framing_roundtrip [1, 258, 515] (by decide)).2.2.2.2.1⟩

/-- C6 counterexample: at a tick with target 3000 ms, elapsed 200 ms, the
tracker not speaking, 1500 ms of silence and 75 samples collected, the code
stops the session (its silence branch only requires more than 50 samples),
while the claim's condition, whose sample floor is the validity gate's
MIN_VALID_SAMPLES = 100, says the session continues; the stopped session
then even fails the validity gate. -/
theorem auto_stop_floor_boundary :
    autoStopDecision 3000 200 false 1500 75 = true ∧
    claimAutoStopDecision 3000 200 false 1500 75 = false ∧
    sessionValid 75 200 = false := by
  decide

/-- C6 amended: in automatic mode a tick stops the session exactly when the
elapsed time has reached the target duration, or the tracker reports
not-speaking, silence has persisted more than SILENCE_DURATION ms, the
elapsed time exceeds 100 ms and the write index exceeds 50 samples — a
sample floor of 50, distinct from the validity gate's floor of 100. -/
theorem auto_stop_characterization :
    ∀ (targetMs elapsed : Nat) (speaking : Bool) (silenceMs bufIdx : Nat),
      autoStopDecision targetMs elapsed speaking silenceMs bufIdx = true ↔
        (targetMs ≤ elapsed ∨
          (speaking = false ∧ SILENCE_DURATION < silenceMs ∧
            100 < elapsed ∧ 50 < bufIdx)) := by
  intro t e sp si idx
  unfold autoStopDecision
  split
  · next h1 => exact iff_of_true rfl (Or.inl h1)
  · next h1 =>
    split
    · next h2 => exact iff_of_true rfl (Or.inr h2)
    · next h2 =>
      constructor
      · intro hc
        exact absurd hc (by simp)
      · intro hc
        rcases hc with hc | hc
        · exact absurd hc h1
        · exact absurd hc h2

/-- C7: the disconnect edge, applicable from any state, brings the machine
to BLUETOOTH_DISCONNECTED, marks the link down and clears the
recording-active flag, so the in-progress session is never transported;
and the chunk-emission loop, which re-checks the link before each chunk,
emits no chunk at or after the first index at which the link is down. -/
theorem disconnect_abort :
    (∀ d : Device,
        (onDisconnect d).currentState = SystemState.BLUETOOTH_DISCONNECTED ∧
        (onDisconnect d).recordingActive = false ∧
        (onDisconnect d).bluetoothConnected = false) ∧
    (∀ (conn : Nat → Bool) (cs : List (List Nat)) (k : Nat),
        conn k = false → (sendChunks conn 0 cs).length ≤ k) := by
  constructor
  · intro d
    exact ⟨rfl, rfl, rfl⟩
  · intro conn cs k hk
    have := sendChunks_length_le conn cs 0 k (Nat.zero_le k) hk
    simpa using this

/-- C7 witness: disconnecting a mid-recording device, and a send over a link
that drops before chunk index 2 emitting at most two of four chunks. -/
theorem disconnect_abort_witness :
    (onDisconnect (sessionAt 500)).currentState = SystemState.BLUETOOTH_DISCONNECTED ∧
    connUntil2 2 = false ∧
    (sendChunks connUntil2 0 [[1], [2], [3], [4]]).length ≤ 2 :=
  ⟨(disconnect_abort.1 (sessionAt 500)).1, by decide,
   disconnect_abort.2 connUntil2 [[1], [2], [3], [4]] 2 (by decide)⟩

/-- C8: the manual target duration is the minimum of the fixed 15-second
policy and the buffer-capacity-derived maximum; with a capacity worth 5
seconds it resolves to 5000 ms, and the manual tick stops exactly when the
elapsed time reaches 5000 ms, not 15000 ms. -/
theorem manual_duration_cap :
    manualTargetMs (5 * SAMPLE_RATE) = 5000 ∧
    (∀ cap : Nat, manualTargetMs cap =
        min (FIXED_RECORDING_DURATION * 1000) (cap * 1000 / SAMPLE_RATE)) ∧
    (∀ e : Nat, manualStopDecision (manualTargetMs (5 * SAMPLE_RATE)) e = true ↔ 5000 ≤ e) ∧
    manualStopDecision (manualTargetMs (5 * SAMPLE_RATE)) 5000 = true := by
  have h5 : manualTargetMs (5 * SAMPLE_RATE) = 5000 := by decide
  refine ⟨h5, fun cap => rfl, fun e => ?_, by decide⟩
  rw [h5]
  simp [manualStopDecision]

/-- C9 counterexample: an R command received while RECORDING does not leave
the state unchanged — the handler sets the state to IDLE from any state,
and likewise for E. -/
theorem ready_command_while_recording :
    (sessionAt 500).currentState = SystemState.RECORDING ∧
    (handleBLECommand 'R' (sessionAt 500)).currentState = SystemState.IDLE ∧
    (handleBLECommand 'E' (sessionAt 500)).currentState = SystemState.IDLE := by
  decide

/-- C9 amended: the R and E command bytes set the state to IDLE
unconditionally, from every state (PROCESSING included), touching no other
field. -/
theorem ready_error_commands_set_idle :
    ∀ d : Device,
      (handleBLECommand 'R' d).currentState = SystemState.IDLE ∧
      (handleBLECommand 'E' d).currentState = SystemState.IDLE ∧
      (handleBLECommand 'R' d).bufferIndex = d.bufferIndex ∧
      (handleBLECommand 'R' d).recordingActive = d.recordingActive ∧
      (handleBLECommand 'E' d).recordingActive = d.recordingActive := by
  intro d
  have hR : handleBLECommand 'R' d = { d with currentState := SystemState.IDLE } := by
    unfold handleBLECommand
    rw [if_neg (by decide), if_neg (by decide), if_pos rfl]
  have hE : handleBLECommand 'E' d = { d with currentState := SystemState.IDLE } := by
    unfold handleBLECommand
    rw [if_neg (by decide), if_neg (by decide), if_neg (by decide), if_pos rfl]
  rw [hR, hE]
  exact ⟨rfl, rfl, rfl, rfl, rfl⟩

/-- C10: a successful start unconditionally raises `speechDetected` and
stamps both `lastSpeechTime` and `recordingStartTime` with the start time;
the VAD update never moves `lastSpeechTime` below the session start; hence
whenever the silence-stop branch fires, more than SILENCE_DURATION ms have
elapsed since the session began. -/
theorem start_sets_speech_state :
    (∀ (m : Bool) (now : Nat) (d : Device),
        d.currentState = SystemState.IDLE → d.bluetoothConnected = true →
          (startRecording m now d).speechDetected = true ∧
          (startRecording m now d).lastSpeechTime = now ∧
          (startRecording m now d).recordingStartTime = now ∧
          (startRecording m now d).currentState = SystemState.RECORDING) ∧
    (∀ (s : VadState) (level : Int) (now start : Nat),
        start ≤ s.lastSpeechTime → start ≤ now →
          start ≤ (vadUpdate s level now).lastSpeechTime) ∧
    (∀ (speaking : Bool) (now lastSpeech start bufIdx : Nat),
        start ≤ lastSpeech →
        silenceStopCond speaking (now - lastSpeech) (now - start) bufIdx = true →
        SILENCE_DURATION < now - start) := by
  refine ⟨?_, ?_, ?_⟩
  · intro m now d h hb
    have hcond : ¬ (d.currentState ≠ SystemState.IDLE ∨ d.bluetoothConnected = false) := by
      rw [h, hb]
      simp
    unfold startRecording
    rw [if_neg hcond]
    exact ⟨rfl, rfl, rfl, rfl⟩
  · intro s level now start h1 h2
    unfold vadUpdate
    split
    · exact h2
    · split
      · exact h1
      · exact h1
  · intro speaking now lastSpeech start bufIdx hle hc
    unfold silenceStopCond at hc
    simp only [Bool.and_eq_true, decide_eq_true_eq] at hc
    have hs : SILENCE_DURATION < now - lastSpeech := hc.1.1.2
    omega

/-- C10 witness: the start effect, the monotone last-speech bound and the
silence-stop lower bound at concrete inputs. -/
theorem start_sets_speech_state_witness :
    (startRecording false 42 idleDev).speechDetected = true ∧
    (5 : Nat) ≤ (vadUpdate { speechDetected := true, lastSpeechTime := 10 } 0 2000).lastSpeechTime ∧
    SILENCE_DURATION < 2000 - 500 :=
  ⟨(start_sets_speech_state.1 false 42 idleDev rfl rfl).1,
   start_sets_speech_state.2.1 { speechDetected := true, lastSpeechTime := 10 } 0 2000 5
     (by decide) (by decide),
   start_sets_speech_state.2.2 false 2000 600 500 60 (by decide) (by decide)⟩

end VoiceMic
